import Mathlib

/-!
# Verification of the npm-parser audit/outdated report decoders

A shallow embedding of `src/audit.rs` and `src/outdated.rs` from the
`npm-parser` crate.  JSON values are modelled by an inductive `Json` type;
the serde-derived decoders are embedded as explicit functions
`Json → Except DecodeError α` that mirror the field inventories,
`rename_all = "camelCase"` key names, optional-field handling and the
untagged-union resolution order of the source.  Decode failures carry the
structural path from the document root, modelling the rendering of
`serde_path_to_error` (the path of the enclosing container plus, for a
missing-field error in a plain struct, the name of the missing field).
For the untagged unions (`Vulnerability`, `Fix`), the serde derive buffers
the value, tries each variant in order and discards the variant errors: a
total failure is the generic "data did not match any variant" error at the
value's own path, with no path into the object — the embedding reproduces
that.
-/

/-- JSON values, as produced by `serde_json`. -/
inductive Json where
  | null
  | bool (b : Bool)
  | num (n : Int)
  | str (s : String)
  | arr (elems : List Json)
  | obj (fields : List (String × Json))

/-- One segment of a structural JSON path: an object key or an array index. -/
inductive PathSeg where
  | key (k : String)
  | idx (i : Nat)
deriving DecidableEq

/-- A decode failure, carrying the structural path at which decoding
diverged (modelling `serde_path_to_error`: for a missing required field the
field name is the final segment) and a message. -/
structure DecodeError where
  path : List PathSeg
  msg : String
deriving DecidableEq

/-- First-match lookup of an object field by key. -/
def Json.lookup (fields : List (String × Json)) (k : String) : Option Json :=
  match fields with
  | [] => none
  | (k₂, v) :: rest => if k₂ = k then some v else Json.lookup rest k

/-- Embedding of Rust `str::split('>')` on the character list of a string:
splits into the (always non-empty) list of groups between separators. -/
def splitChar (sep : Char) : List Char → List (List Char)
  | [] => [[]]
  | c :: cs =>
    match splitChar sep cs with
    | [] => [[]]
    | g :: gs => if c = sep then [] :: g :: gs else (c :: g) :: gs

/-- Embedding of Rust `[String]::join(">")` at the character level:
interleaves the separator between the groups. -/
def joinChar (sep : Char) : List (List Char) → List Char
  | [] => []
  | [g] => g
  | g :: g₂ :: gs => g ++ sep :: joinChar sep (g₂ :: gs)

/-- `Severity` from `src/audit.rs`: severity of vulnerabilities, with the
derived order given by declaration order
(`None < Info < Low < Moderate < High < Critical`). -/
inductive Severity where
  | None
  | Info
  | Low
  | Moderate
  | High
  | Critical
deriving DecidableEq, Fintype

/-- Rank of a `Severity` constructor in declaration order; this realizes the
`derive(Ord)` of the Rust enum. -/
def Severity.toNat : Severity → Nat
  | .None => 0
  | .Info => 1
  | .Low => 2
  | .Moderate => 3
  | .High => 4
  | .Critical => 5

/-- The linear order on `Severity` induced by declaration order, mirroring
the Rust `derive(PartialOrd, Ord)`. -/
instance : LinearOrder Severity :=
  LinearOrder.lift' Severity.toNat
    (fun a b h => by cases a <;> cases b <;> first | rfl | exact absurd h (by decide))

/-- The `rename_all = "camelCase"` serialization of a `Severity` value:
its lowercase variant name as a JSON string. -/
def severityToJson : Severity → Json
  | .None => .str "none"
  | .Info => .str "info"
  | .Low => .str "low"
  | .Moderate => .str "moderate"
  | .High => .str "high"
  | .Critical => .str "critical"

/-- Decoder for `Severity`: accepts exactly the six lowercase variant names. -/
def decodeSeverity (p : List PathSeg) (j : Json) : Except DecodeError Severity :=
  match j with
  | .str "none" => .ok .None
  | .str "info" => .ok .Info
  | .str "low" => .ok .Low
  | .str "moderate" => .ok .Moderate
  | .str "high" => .ok .High
  | .str "critical" => .ok .Critical
  | _ => .error ⟨p, "unknown variant for Severity"⟩

/-- Decoder primitive: expect a JSON string. -/
def decStr (p : List PathSeg) (j : Json) : Except DecodeError String :=
  match j with
  | .str s => .ok s
  | _ => .error ⟨p, "invalid type: expected a string"⟩

/-- Decoder primitive: expect a JSON boolean. -/
def decBool (p : List PathSeg) (j : Json) : Except DecodeError Bool :=
  match j with
  | .bool b => .ok b
  | _ => .error ⟨p, "invalid type: expected a boolean"⟩

/-- Decoder primitive: expect a JSON number in the `u64` range. -/
def decU64 (p : List PathSeg) (j : Json) : Except DecodeError Nat :=
  match j with
  | .num n => if 0 ≤ n ∧ n < 2 ^ 64 then .ok n.toNat else .error ⟨p, "invalid value for u64"⟩
  | _ => .error ⟨p, "invalid type: expected u64"⟩

/-- Decoder primitive: expect a JSON number in the `u32` range. -/
def decU32 (p : List PathSeg) (j : Json) : Except DecodeError Nat :=
  match j with
  | .num n => if 0 ≤ n ∧ n < 2 ^ 32 then .ok n.toNat else .error ⟨p, "invalid value for u32"⟩
  | _ => .error ⟨p, "invalid type: expected u32"⟩

/-- Require an object field: a missing required field is a decode failure
whose path ends with the missing key (modelling the rendered
`serde_path_to_error` failure, which names the enclosing path and the
missing field). -/
def reqField (p : List PathSeg) (fields : List (String × Json)) (k : String) :
    Except DecodeError Json :=
  match Json.lookup fields k with
  | some v => .ok v
  | none => .error ⟨p ++ [.key k], "missing field"⟩

/-- Optional field as serde derives it for a plain `Option` type: a missing
key or an explicit `null` value decodes to `none`, any other value is
decoded by the element decoder. -/
def optField (p : List PathSeg) (fields : List (String × Json)) (k : String)
    (dec : List PathSeg → Json → Except DecodeError α) : Except DecodeError (Option α) :=
  match Json.lookup fields k with
  | none => .ok none
  | some .null => .ok none
  | some v => (dec (p ++ [.key k]) v).map some

/-- Decode the elements of a JSON array, extending the path with the index
of each element. -/
def decElems (p : List PathSeg) (dec : List PathSeg → Json → Except DecodeError α) :
    List Json → Nat → Except DecodeError (List α)
  | [], _ => .ok []
  | j :: js, i => do
    let x ← dec (p ++ [.idx i]) j
    let xs ← decElems p dec js (i + 1)
    .ok (x :: xs)

/-- Decoder primitive: expect a JSON array and decode every element. -/
def decArr (p : List PathSeg) (dec : List PathSeg → Json → Except DecodeError α)
    (j : Json) : Except DecodeError (List α) :=
  match j with
  | .arr elems => decElems p dec elems 0
  | _ => .error ⟨p, "invalid type: expected a sequence"⟩

/-- Insert into an association list with last-write-wins semantics,
modelling insertion into a `BTreeMap` while decoding a JSON object. -/
def mapInsert (m : List (String × α)) (k : String) (v : α) : List (String × α) :=
  match m with
  | [] => [(k, v)]
  | (k₂, v₂) :: rest => if k₂ = k then (k, v) :: rest else (k₂, v₂) :: mapInsert rest k v

/-- Decode the entries of a JSON object into a string-keyed map, extending
the path with each key. -/
def decEntries (p : List PathSeg) (dec : List PathSeg → Json → Except DecodeError α) :
    List (String × Json) → List (String × α) → Except DecodeError (List (String × α))
  | [], acc => .ok acc
  | (k, j) :: rest, acc => do
    let v ← dec (p ++ [.key k]) j
    decEntries p dec rest (mapInsert acc k v)

/-- Decoder primitive: expect a JSON object and decode it as a
`BTreeMap<String, _>`. -/
def decMap (p : List PathSeg) (dec : List PathSeg → Json → Except DecodeError α)
    (j : Json) : Except DecodeError (List (String × α)) :=
  match j with
  | .obj fields => decEntries p dec fields []
  | _ => .error ⟨p, "invalid type: expected a map"⟩

/-- A point in time with a UTC offset, modelling `time::OffsetDateTime` from
the external `time` crate at the granularity the source uses (an RFC 3339
date-time: date, time, optional subsecond nanoseconds, UTC offset in
minutes). -/
structure OffsetDateTime where
  year : Nat
  month : Nat
  day : Nat
  hour : Nat
  minute : Nat
  second : Nat
  nanos : Nat
  offsetMinutes : Int
deriving DecidableEq

/-- Read exactly `n` decimal digits, accumulating their value. -/
def readFixedNat : Nat → Nat → List Char → Option (Nat × List Char)
  | 0, acc, cs => some (acc, cs)
  | _ + 1, _, [] => none
  | n + 1, acc, c :: cs =>
    if c.isDigit then readFixedNat n (acc * 10 + (c.toNat - 48)) cs else none

/-- Expect one specific character. -/
def expectChar (c : Char) : List Char → Option (List Char)
  | [] => none
  | c₂ :: cs => if c₂ = c then some cs else none

/-- Parse an optional fractional-second part `.d…d` (one to nine digits)
into nanoseconds; no dot means zero nanoseconds. -/
def parseFrac : List Char → Option (Nat × List Char)
  | '.' :: rest =>
    let digits := rest.takeWhile Char.isDigit
    let r := rest.dropWhile Char.isDigit
    if digits.length = 0 ∨ 9 < digits.length then none
    else some ((digits.foldl (fun acc c => acc * 10 + (c.toNat - 48)) 0) *
      10 ^ (9 - digits.length), r)
  | cs => some (0, cs)

/-- Parse the RFC 3339 offset part: `Z`/`z` or `±HH:MM`, in minutes. -/
def parseOffset : List Char → Option (Int × List Char)
  | 'Z' :: cs => some (0, cs)
  | 'z' :: cs => some (0, cs)
  | '+' :: cs => do
    let (h, r) ← readFixedNat 2 0 cs
    let r ← expectChar ':' r
    let (m, r) ← readFixedNat 2 0 r
    if h ≤ 23 ∧ m ≤ 59 then some (((h * 60 + m : Nat) : Int), r) else none
  | '-' :: cs => do
    let (h, r) ← readFixedNat 2 0 cs
    let r ← expectChar ':' r
    let (m, r) ← readFixedNat 2 0 r
    if h ≤ 23 ∧ m ≤ 59 then some (-((h * 60 + m : Nat) : Int), r) else none
  | _ => none

/-- Modelled from the external `time` crate: parse an RFC 3339 date-time
string (`YYYY-MM-DDTHH:MM:SS[.frac](Z|±HH:MM)`), as used by
`time::OffsetDateTime::parse` with the `Rfc3339` well-known format. -/
def parseRfc3339 (s : String) : Option OffsetDateTime := do
  let (y, r) ← readFixedNat 4 0 s.data
  let r ← expectChar '-' r
  let (mo, r) ← readFixedNat 2 0 r
  let r ← expectChar '-' r
  let (d, r) ← readFixedNat 2 0 r
  let r ← match r with
    | c :: rest => if c = 'T' ∨ c = 't' then some rest else none
    | [] => none
  let (h, r) ← readFixedNat 2 0 r
  let r ← expectChar ':' r
  let (mi, r) ← readFixedNat 2 0 r
  let r ← expectChar ':' r
  let (sec, r) ← readFixedNat 2 0 r
  let (nanos, r) ← parseFrac r
  let (off, r) ← parseOffset r
  if r = [] ∧ 1 ≤ mo ∧ mo ≤ 12 ∧ 1 ≤ d ∧ d ≤ 31 ∧ h ≤ 23 ∧ mi ≤ 59 ∧ sec ≤ 60 then
    some ⟨y, mo, d, h, mi, sec, nanos, off⟩
  else
    none

/-- Decimal digits of `n`, left-padded with zeros to `width` characters. -/
def padNat (width n : Nat) : List Char :=
  let ds := Nat.toDigits 10 n
  List.replicate (width - ds.length) '0' ++ ds

/-- Modelled from the external `time` crate: render a timestamp in the
RFC 3339 well-known format (subseconds only when non-zero, `Z` for the UTC
offset). -/
def formatRfc3339 (t : OffsetDateTime) : String :=
  let frac :=
    if t.nanos = 0 then []
    else '.' :: (padNat 9 t.nanos).reverse.dropWhile (· = '0') |>.reverse
  let off :=
    if t.offsetMinutes = 0 then ['Z']
    else
      (if t.offsetMinutes < 0 then '-' else '+') ::
        (padNat 2 (t.offsetMinutes.natAbs / 60) ++ ':' :: padNat 2 (t.offsetMinutes.natAbs % 60))
  String.mk (padNat 4 t.year ++ '-' :: padNat 2 t.month ++ '-' :: padNat 2 t.day ++
    'T' :: padNat 2 t.hour ++ ':' :: padNat 2 t.minute ++ ':' :: padNat 2 t.second ++
    frac ++ off)

/-- `deserialize_rfc3339` from `src/audit.rs`: deserialize a string and
parse it as an RFC 3339 date-time; a parse error is a decode failure. -/
def deserialize_rfc3339 (p : List PathSeg) (j : Json) : Except DecodeError OffsetDateTime := do
  let s ← decStr p j
  match parseRfc3339 s with
  | some t => .ok t
  | none => .error ⟨p, "rfc3339 parse error"⟩

/-- `serialize_rfc3339` from `src/audit.rs`: format the timestamp as an
RFC 3339 string. -/
def serialize_rfc3339 (t : OffsetDateTime) : Json :=
  .str (formatRfc3339 t)

/-- `deserialize_optional_rfc3339` from `src/audit.rs`: deserialize an
`Option<String>` (JSON `null` is a handled value giving `none`), then parse
a present string as RFC 3339. -/
def deserialize_optional_rfc3339 (p : List PathSeg) (j : Json) :
    Except DecodeError (Option OffsetDateTime) :=
  match j with
  | .null => .ok none
  | .str s =>
    match parseRfc3339 s with
    | some t => .ok (some t)
    | none => .error ⟨p, "rfc3339 parse error"⟩
  | _ => .error ⟨p, "invalid type: expected an optional string"⟩

/-- `serialize_optional_rfc3339` from `src/audit.rs`: a present timestamp
serializes to its RFC 3339 string, an absent one to JSON `null`. -/
def serialize_optional_rfc3339 : Option OffsetDateTime → Json
  | some t => .str (formatRfc3339 t)
  | none => .null

/-- `deserialize_module_path` from `src/audit.rs`: deserialize a string and
split it on the literal separator character into the ordered package-name
sequence. -/
def deserialize_module_path (p : List PathSeg) (j : Json) :
    Except DecodeError (List String) :=
  (decStr p j).map (fun s => (splitChar '>' s.data).map String.mk)

/-- `serialize_module_path` from `src/audit.rs`: join the package names with
the literal separator into a single string. -/
def serialize_module_path (xs : List String) : Json :=
  .str (String.mk (joinChar '>' (xs.map String.data)))

/-- `deserialize_module_path_vec` from `src/audit.rs`: deserialize a
sequence of strings and split each one independently. -/
def deserialize_module_path_vec (p : List PathSeg) (j : Json) :
    Except DecodeError (List (List String)) :=
  (decArr p decStr j).map (List.map fun s => (splitChar '>' s.data).map String.mk)

/-- `serialize_module_path_vec` from `src/audit.rs`: join each path
independently and serialize the resulting sequence of strings. -/
def serialize_module_path_vec (xss : List (List String)) : Json :=
  .arr ((xss.map fun xs => String.mk (joinChar '>' (xs.map String.data))).map Json.str)

deriving instance DecidableEq for Except

/-- Require a field and decode its value, extending the path with the key. -/
def reqDec (p : List PathSeg) (fields : List (String × Json)) (k : String)
    (dec : List PathSeg → Json → Except DecodeError α) : Except DecodeError α := do
  let v ← reqField p fields k
  dec (p ++ [.key k]) v

/-- `Vulnerability` from `src/audit.rs`: a single `via` entry; an untagged
union of a bare name string and a full record. -/
inductive Vulnerability where
  | NameOnly (name : String)
  | Full (source : Nat) (name dependency title url : String)
      (severity : Severity) (range : String)
deriving DecidableEq

/-- `Fix` from `src/audit.rs`: `fixAvailable`; an untagged union of a bare
boolean and a full record (named `Fix'` here because `Fix` is taken by the
ambient library). -/
inductive Fix' where
  | BoolOnly (b : Bool)
  | Full (name version : String) (isSemVerMajor : Bool)
deriving DecidableEq

/-- `VulnerablePackage` from `src/audit.rs` (report version 2). -/
structure VulnerablePackage where
  name : String
  severity : Severity
  isDirect : Bool
  via : List Vulnerability
  effects : List String
  range : String
  nodes : List String
  fixAvailable : Fix'
deriving DecidableEq

/-- `VulnerabilityCountsV2` from `src/audit.rs`. -/
structure VulnerabilityCountsV2 where
  total : Nat
  info : Nat
  low : Nat
  moderate : Nat
  high : Nat
  critical : Nat
deriving DecidableEq

/-- `DependencyCounts` from `src/audit.rs`. -/
structure DependencyCounts where
  total : Nat
  prod : Nat
  dev : Nat
  optional : Nat
  peer : Nat
  peerOptional : Nat
deriving DecidableEq

/-- `MetadataV2` from `src/audit.rs`. -/
structure MetadataV2 where
  vulnerabilities : VulnerabilityCountsV2
  dependencies : DependencyCounts
deriving DecidableEq

/-- `NpmAuditDataV2` from `src/audit.rs`: audit report version 2. -/
structure NpmAuditDataV2 where
  auditReportVersion : Option Nat
  vulnerabilities : List (String × VulnerablePackage)
  metadata : MetadataV2
deriving DecidableEq

/-- The serde untagged derive buffers the value and tries each variant in
order, discarding every variant's own error: if no variant matches, the
failure is the generic untagged error reported at the value's own path
(`serde_path_to_error` cannot track inside the buffered content). -/
def untaggedFallback (p : List PathSeg) (msg : String) (r : Except DecodeError α) :
    Except DecodeError α :=
  match r with
  | .ok v => .ok v
  | .error _ => .error ⟨p, msg⟩

/-- The `Full`-variant visitor of `Vulnerability`: requires all seven
fields.  Its error is discarded by the untagged dispatcher, never surfaced. -/
def decodeVulnerabilityFull (p : List PathSeg) (j : Json) : Except DecodeError Vulnerability :=
  match j with
  | .obj fields => do
    let source ← reqDec p fields "source" decU64
    let name ← reqDec p fields "name" decStr
    let dependency ← reqDec p fields "dependency" decStr
    let title ← reqDec p fields "title" decStr
    let url ← reqDec p fields "url" decStr
    let severity ← reqDec p fields "severity" decodeSeverity
    let range ← reqDec p fields "range" decStr
    .ok (.Full source name dependency title url severity range)
  | _ => .error ⟨p, "invalid type: expected struct variant Vulnerability.Full"⟩

/-- Decoder for the untagged `Vulnerability` union, in the declared variant
order: a JSON string resolves to `NameOnly`; otherwise the `Full` variant is
attempted, and any failure of that attempt (a missing required field
included) is discarded in favour of the generic untagged error at the
entry's own path — a decode failure, not a fallback to `NameOnly`. -/
def decodeVulnerability (p : List PathSeg) (j : Json) : Except DecodeError Vulnerability :=
  match j with
  | .str s => .ok (.NameOnly s)
  | _ =>
    untaggedFallback p "data did not match any variant of untagged enum Vulnerability"
      (decodeVulnerabilityFull p j)

/-- The `Full`-variant visitor of `Fix`: requires `name`, `version` and
`isSemVerMajor`.  Its error is discarded by the untagged dispatcher. -/
def decodeFixFull (p : List PathSeg) (j : Json) : Except DecodeError Fix' :=
  match j with
  | .obj fields => do
    let name ← reqDec p fields "name" decStr
    let version ← reqDec p fields "version" decStr
    let isSemVerMajor ← reqDec p fields "isSemVerMajor" decBool
    .ok (.Full name version isSemVerMajor)
  | _ => .error ⟨p, "invalid type: expected struct variant Fix.Full"⟩

/-- Decoder for the untagged `Fix` union, in the declared variant order: a
JSON boolean resolves to `BoolOnly`; otherwise the `Full` variant is
attempted, any failure being discarded in favour of the generic untagged
error at the value's own path. -/
def decodeFix (p : List PathSeg) (j : Json) : Except DecodeError Fix' :=
  match j with
  | .bool b => .ok (.BoolOnly b)
  | _ =>
    untaggedFallback p "data did not match any variant of untagged enum Fix"
      (decodeFixFull p j)

/-- Decoder for `VulnerablePackage` (camelCase field names as in the
source's `rename_all`). -/
def decodeVulnerablePackage (p : List PathSeg) (j : Json) :
    Except DecodeError VulnerablePackage :=
  match j with
  | .obj fields => do
    let name ← reqDec p fields "name" decStr
    let severity ← reqDec p fields "severity" decodeSeverity
    let isDirect ← reqDec p fields "isDirect" decBool
    let via ← reqDec p fields "via" (fun p₂ v => decArr p₂ decodeVulnerability v)
    let effects ← reqDec p fields "effects" (fun p₂ v => decArr p₂ decStr v)
    let range ← reqDec p fields "range" decStr
    let nodes ← reqDec p fields "nodes" (fun p₂ v => decArr p₂ decStr v)
    let fixAvailable ← reqDec p fields "fixAvailable" decodeFix
    .ok ⟨name, severity, isDirect, via, effects, range, nodes, fixAvailable⟩
  | _ => .error ⟨p, "invalid type: expected struct VulnerablePackage"⟩

/-- Decoder for `VulnerabilityCountsV2`. -/
def decodeVulnerabilityCountsV2 (p : List PathSeg) (j : Json) :
    Except DecodeError VulnerabilityCountsV2 :=
  match j with
  | .obj fields => do
    let total ← reqDec p fields "total" decU32
    let info ← reqDec p fields "info" decU32
    let low ← reqDec p fields "low" decU32
    let moderate ← reqDec p fields "moderate" decU32
    let high ← reqDec p fields "high" decU32
    let critical ← reqDec p fields "critical" decU32
    .ok ⟨total, info, low, moderate, high, critical⟩
  | _ => .error ⟨p, "invalid type: expected struct VulnerabilityCountsV2"⟩

/-- Decoder for `DependencyCounts`. -/
def decodeDependencyCounts (p : List PathSeg) (j : Json) :
    Except DecodeError DependencyCounts :=
  match j with
  | .obj fields => do
    let total ← reqDec p fields "total" decU32
    let prod ← reqDec p fields "prod" decU32
    let dev ← reqDec p fields "dev" decU32
    let optional ← reqDec p fields "optional" decU32
    let peer ← reqDec p fields "peer" decU32
    let peerOptional ← reqDec p fields "peerOptional" decU32
    .ok ⟨total, prod, dev, optional, peer, peerOptional⟩
  | _ => .error ⟨p, "invalid type: expected struct DependencyCounts"⟩

/-- Decoder for `MetadataV2`. -/
def decodeMetadataV2 (p : List PathSeg) (j : Json) : Except DecodeError MetadataV2 :=
  match j with
  | .obj fields => do
    let vulnerabilities ← reqDec p fields "vulnerabilities" decodeVulnerabilityCountsV2
    let dependencies ← reqDec p fields "dependencies" decodeDependencyCounts
    .ok ⟨vulnerabilities, dependencies⟩
  | _ => .error ⟨p, "invalid type: expected struct MetadataV2"⟩

/-- Decoder for `NpmAuditDataV2`: optional `auditReportVersion`, required
`vulnerabilities` map and `metadata`. -/
def decodeNpmAuditDataV2 (p : List PathSeg) (j : Json) : Except DecodeError NpmAuditDataV2 :=
  match j with
  | .obj fields => do
    let auditReportVersion ← optField p fields "auditReportVersion" decU32
    let vulnerabilities ←
      reqDec p fields "vulnerabilities" (fun p₂ v => decMap p₂ decodeVulnerablePackage v)
    let metadata ← reqDec p fields "metadata" decodeMetadataV2
    .ok ⟨auditReportVersion, vulnerabilities, metadata⟩
  | _ => .error ⟨p, "invalid type: expected struct NpmAuditDataV2"⟩

/-- `Resolves` from `src/audit.rs`: which advisories are resolved by an
action; `path` is stored decoded (split on the separator). -/
structure Resolves where
  id : Nat
  path : List String
  dev : Bool
  optional : Bool
  bundled : Bool
deriving DecidableEq

/-- `Action` from `src/audit.rs`: actions to perform to fix security
issues, tagged by the explicit `action` discriminator field (named
`Action'` here because `Action` is taken by the ambient library). -/
inductive Action' where
  | Install (resolves : List Resolves) (module : String) (depth : Option Nat)
      (target : String) (isMajor : Bool)
  | Update (resolves : List Resolves) (module : String) (depth : Option Nat)
      (target : String)
  | Review (resolves : List Resolves) (module : String) (depth : Option Nat)
deriving DecidableEq

/-- `Finding` from `src/audit.rs`: where an affected module was found;
`paths` is stored decoded (each element split on the separator). -/
structure Finding where
  version : String
  paths : List (List String)
deriving DecidableEq

/-- `Advisory` from `src/audit.rs` (report version 1). -/
structure Advisory where
  id : Nat
  title : String
  findings : List Finding
  vulnerable_versions : Option String
  module_name : Option String
  severity : Severity
  github_advisory_id : Option String
  cves : Option (List String)
  access : String
  patched_versions : Option String
  recommendation : String
  cwe : Option String
  found_by : Option String
  reported_by : Option String
  created : OffsetDateTime
  updated : Option OffsetDateTime
  deleted : Option OffsetDateTime
  references : Option String
  npm_advisory_id : Option String
  overview : String
  url : String
deriving DecidableEq

/-- `NpmAuditDataV1` from `src/audit.rs`: audit report version 1. -/
structure NpmAuditDataV1 where
  run_id : Option String
  actions : List Action'
  advisories : List (String × Advisory)
  muted : Option (List String)
deriving DecidableEq

/-- `NpmAuditData` from `src/audit.rs`: the tagged choice between the two
report versions, fixed at decode time. -/
inductive NpmAuditData where
  | Version1 (d : NpmAuditDataV1)
  | Version2 (d : NpmAuditDataV2)
deriving DecidableEq

/-- `IndicatedUpdateRequirement`: what the exit code indicated about
required updates (declared identically in `src/audit.rs` and
`src/outdated.rs`; modelled once). -/
inductive IndicatedUpdateRequirement where
  | UpToDate
  | UpdateRequired
deriving DecidableEq

/-- Decoder for `Resolves`; the `path` field uses the module-path codec. -/
def decodeResolves (p : List PathSeg) (j : Json) : Except DecodeError Resolves :=
  match j with
  | .obj fields => do
    let id ← reqDec p fields "id" decU64
    let path ← reqDec p fields "path" deserialize_module_path
    let dev ← reqDec p fields "dev" decBool
    let optional ← reqDec p fields "optional" decBool
    let bundled ← reqDec p fields "bundled" decBool
    .ok ⟨id, path, dev, optional, bundled⟩
  | _ => .error ⟨p, "invalid type: expected struct Resolves"⟩

/-- Decoder for the internally tagged `Action` enum: the `action` field
holds the lowercase variant name; each variant decodes its own field set
(`Review` lacks `target` and `isMajor`). -/
def decodeAction (p : List PathSeg) (j : Json) : Except DecodeError Action' :=
  match j with
  | .obj fields => do
    let tag ← reqDec p fields "action" decStr
    let resolves ← reqDec p fields "resolves" (fun p₂ v => decArr p₂ decodeResolves v)
    let module ← reqDec p fields "module" decStr
    let depth ← optField p fields "depth" decU32
    match tag with
    | "install" => do
      let target ← reqDec p fields "target" decStr
      let isMajor ← reqDec p fields "isMajor" decBool
      .ok (.Install resolves module depth target isMajor)
    | "update" => do
      let target ← reqDec p fields "target" decStr
      .ok (.Update resolves module depth target)
    | "review" => .ok (.Review resolves module depth)
    | _ => .error ⟨p, "unknown variant for tag action"⟩
  | _ => .error ⟨p, "invalid type: expected struct variant of Action"⟩

/-- Decoder for `Finding`; the `paths` field uses the module-path vector
codec. -/
def decodeFinding (p : List PathSeg) (j : Json) : Except DecodeError Finding :=
  match j with
  | .obj fields => do
    let version ← reqDec p fields "version" decStr
    let paths ← reqDec p fields "paths" deserialize_module_path_vec
    .ok ⟨version, paths⟩
  | _ => .error ⟨p, "invalid type: expected struct Finding"⟩

/-- Decoder for `Advisory` (camelCase keys).  `created` is required and uses
the RFC 3339 codec; `updated` and `deleted` use the optional RFC 3339 codec
and, having `deserialize_with` without `default` in the source, must be
present as keys (a `null` value is the handled absent case). -/
def decodeAdvisory (p : List PathSeg) (j : Json) : Except DecodeError Advisory :=
  match j with
  | .obj fields => do
    let id ← reqDec p fields "id" decU64
    let title ← reqDec p fields "title" decStr
    let findings ← reqDec p fields "findings" (fun p₂ v => decArr p₂ decodeFinding v)
    let vulnerable_versions ← optField p fields "vulnerableVersions" decStr
    let module_name ← optField p fields "moduleName" decStr
    let severity ← reqDec p fields "severity" decodeSeverity
    let github_advisory_id ← optField p fields "githubAdvisoryId" decStr
    let cves ← optField p fields "cves" (fun p₂ v => decArr p₂ decStr v)
    let access ← reqDec p fields "access" decStr
    let patched_versions ← optField p fields "patchedVersions" decStr
    let recommendation ← reqDec p fields "recommendation" decStr
    let cwe ← optField p fields "cwe" decStr
    let found_by ← optField p fields "foundBy" decStr
    let reported_by ← optField p fields "reportedBy" decStr
    let created ← reqDec p fields "created" deserialize_rfc3339
    let updated ← reqDec p fields "updated" deserialize_optional_rfc3339
    let deleted ← reqDec p fields "deleted" deserialize_optional_rfc3339
    let references ← optField p fields "references" decStr
    let npm_advisory_id ← optField p fields "npmAdvisoryId" decStr
    let overview ← reqDec p fields "overview" decStr
    let url ← reqDec p fields "url" decStr
    .ok ⟨id, title, findings, vulnerable_versions, module_name, severity,
      github_advisory_id, cves, access, patched_versions, recommendation, cwe,
      found_by, reported_by, created, updated, deleted, references,
      npm_advisory_id, overview, url⟩
  | _ => .error ⟨p, "invalid type: expected struct Advisory"⟩

/-- Decoder for `NpmAuditDataV1`: optional `runId`, required `actions`
sequence and `advisories` map, optional `muted` list. -/
def decodeNpmAuditDataV1 (p : List PathSeg) (j : Json) : Except DecodeError NpmAuditDataV1 :=
  match j with
  | .obj fields => do
    let run_id ← optField p fields "runId" decStr
    let actions ← reqDec p fields "actions" (fun p₂ v => decArr p₂ decodeAction v)
    let advisories ← reqDec p fields "advisories" (fun p₂ v => decMap p₂ decodeAdvisory v)
    let muted ← optField p fields "muted" (fun p₂ v => decArr p₂ decStr v)
    .ok ⟨run_id, actions, advisories, muted⟩
  | _ => .error ⟨p, "invalid type: expected struct NpmAuditDataV1"⟩

/-- `PackageStatus` from `src/outdated.rs`: the per-package record of the
freshness report.  `location` is optional; `dependent`, the `type` tag
(renamed to `package_type` in memory) and `homepage` are required. -/
structure PackageStatus where
  wanted : String
  latest : String
  location : Option String
  dependent : String
  package_type : String
  homepage : String
deriving DecidableEq

/-- `NpmOutdatedData` from `src/outdated.rs`: the freshness report, a map
from package name to `PackageStatus`. -/
structure NpmOutdatedData where
  packages : List (String × PackageStatus)
deriving DecidableEq

/-- Decoder for `PackageStatus`: `wanted`, `latest`, `dependent`, `type`
and `homepage` are required fields; `location` is optional. -/
def decodePackageStatus (p : List PathSeg) (j : Json) : Except DecodeError PackageStatus :=
  match j with
  | .obj fields => do
    let wanted ← reqDec p fields "wanted" decStr
    let latest ← reqDec p fields "latest" decStr
    let location ← optField p fields "location" decStr
    let dependent ← reqDec p fields "dependent" decStr
    let package_type ← reqDec p fields "type" decStr
    let homepage ← reqDec p fields "homepage" decStr
    .ok ⟨wanted, latest, location, dependent, package_type, homepage⟩
  | _ => .error ⟨p, "invalid type: expected struct PackageStatus"⟩

/-- Decoder for `NpmOutdatedData`: a map from package name to
`PackageStatus`. -/
def decodeNpmOutdatedData (p : List PathSeg) (j : Json) : Except DecodeError NpmOutdatedData :=
  (decMap p decodePackageStatus j).map NpmOutdatedData.mk

/-- A semantic version: `major.minor.patch` with optional pre-release and
build-metadata chunks. -/
structure SemVer where
  major : Nat
  minor : Nat
  patch : Nat
  pre : Option (List Char)
  meta : Option (List Char)
deriving DecidableEq

/-- Read one or more decimal digits. -/
def readNat (cs : List Char) : Option (Nat × List Char) :=
  let ds := cs.takeWhile Char.isDigit
  if ds.isEmpty then none
  else some (ds.foldl (fun acc c => acc * 10 + (c.toNat - 48)) 0, cs.dropWhile Char.isDigit)

/-- Characters allowed in pre-release / build-metadata chunks. -/
def isIdentChar (c : Char) : Bool :=
  c.isAlphanum || c = '.' || c = '-'

/-- Modelled from the spec: the external `versions` crate's
`Versioning::new`, which the spec describes as parsing the string as a
semantic version (`major.minor.patch` with optional `-pre` and `+meta`),
with unparseable strings yielding no value. -/
def SemVer.parse (s : String) : Option SemVer := do
  let (major, r) ← readNat s.data
  let r ← expectChar '.' r
  let (minor, r) ← readNat r
  let r ← expectChar '.' r
  let (patch, r) ← readNat r
  match r with
  | [] => some ⟨major, minor, patch, none, none⟩
  | '-' :: rest =>
    let pre := rest.takeWhile (· ≠ '+')
    let rest₂ := rest.dropWhile (· ≠ '+')
    if pre.isEmpty || !(pre.all isIdentChar) then none
    else
      match rest₂ with
      | [] => some ⟨major, minor, patch, some pre, none⟩
      | '+' :: m =>
        if m.isEmpty || !(m.all isIdentChar) then none
        else some ⟨major, minor, patch, some pre, some m⟩
      | _ => none
  | '+' :: m =>
    if m.isEmpty || !(m.all isIdentChar) then none
    else some ⟨major, minor, patch, none, some m⟩
  | _ => none

/-- Lexicographic strict order on character lists. -/
def ltChars : List Char → List Char → Bool
  | [], [] => false
  | [], _ :: _ => true
  | _ :: _, [] => false
  | a :: as, b :: bs => if a = b then ltChars as bs else decide (a < b)

/-- Modelled from the spec: the strict order on semantic versions used by
the threshold comparison — lexicographic on `(major, minor, patch)`, with a
pre-release sorting before the corresponding release. -/
def SemVer.ltb (a b : SemVer) : Bool :=
  if a.major ≠ b.major then decide (a.major < b.major)
  else if a.minor ≠ b.minor then decide (a.minor < b.minor)
  else if a.patch ≠ b.patch then decide (a.patch < b.patch)
  else
    match a.pre, b.pre with
    | some _, none => true
    | none, _ => false
    | some x, some y => ltChars x y

/-- The fixed schema-change threshold `7.0.0`
(`versions::Versioning::new("7.0.0").unwrap()` in the source). -/
def auditReportChange : SemVer :=
  (SemVer.parse "7.0.0").getD ⟨7, 0, 0, none, none⟩

/-- The version detector of `audit()` in `src/audit.rs` (lines 504–529):
parse the version string; a parseable version strictly below the threshold
selects report format 1, otherwise report format 2; an unparseable string
defaults to report format 2. -/
def reportFormat (version : String) : Nat :=
  match SemVer.parse version with
  | some v => if SemVer.ltb v auditReportChange then 1 else 2
  | none => 2

/-- The pure core of `audit()` from `src/audit.rs`: classify the exit
status (success means up to date), then decode the payload against the
schema selected by the version detector.  The source's `panic!` on an
unknown report format is modelled as an error; it is unreachable because
`reportFormat` only returns 1 or 2. -/
def audit_pure (version : String) (exitSuccess : Bool) (json : Json) :
    Except DecodeError (IndicatedUpdateRequirement × NpmAuditData) :=
  let update_requirement :=
    if exitSuccess then IndicatedUpdateRequirement.UpToDate
    else IndicatedUpdateRequirement.UpdateRequired
  match reportFormat version with
  | 1 => (decodeNpmAuditDataV1 [] json).map (fun d => (update_requirement, .Version1 d))
  | 2 => (decodeNpmAuditDataV2 [] json).map (fun d => (update_requirement, .Version2 d))
  | _ => .error ⟨[], "Unknown report version"⟩

/-- The pure core of `outdated()` from `src/outdated.rs`: classify the exit
status (success means an update is required — the opposite polarity from
the audit path), then decode the freshness report. -/
def outdated_pure (exitSuccess : Bool) (json : Json) :
    Except DecodeError (IndicatedUpdateRequirement × NpmOutdatedData) :=
  let update_requirement :=
    if exitSuccess then IndicatedUpdateRequirement.UpdateRequired
    else IndicatedUpdateRequirement.UpToDate
  (decodeNpmOutdatedData [] json).map (fun d => (update_requirement, d))

/-- A `via` entry object carrying every required field of the full
`Vulnerability` shape. -/
def vulnFullFields : List (String × Json) :=
  [("source", .num 118), ("name", .str "lodash"), ("dependency", .str "lodash"),
   ("title", .str "Prototype Pollution"), ("url", .str "https://npmjs.com/advisories/118"),
   ("severity", .str "high"), ("range", .str "<4.17.5")]

/-- A freshness-report package entry carrying every field of
`PackageStatus`. -/
def packageStatusFull : List (String × Json) :=
  [("wanted", .str "1.2.3"), ("latest", .str "2.0.0"), ("location", .str "node_modules/foo"),
   ("dependent", .str "app"), ("type", .str "dependencies"),
   ("homepage", .str "https://example.com")]

/-- An advisory object that carries every required field except the
`created` timestamp. -/
def advisoryNoCreated : Json :=
  .obj [("id", .num 118), ("title", .str "Prototype Pollution"),
    ("findings", .arr [.obj [("version", .str "4.17.4"), ("paths", .arr [.str "app>lodash"])]]),
    ("severity", .str "high"), ("access", .str "public"),
    ("recommendation", .str "Update to 4.17.5 or later."),
    ("updated", .null), ("deleted", .null),
    ("overview", .str "lodash is vulnerable to prototype pollution."),
    ("url", .str "https://npmjs.com/advisories/118")]

/-- A v1 report whose advisories mapping contains one advisory (key `118`)
that is missing the required `created` timestamp. -/
def v1MissingCreated : Json :=
  .obj [("actions", .arr []), ("advisories", .obj [("118", advisoryNoCreated)])]

/-- A minimal well-formed v2 report: no vulnerabilities, zero counts. -/
def v2Minimal : Json :=
  .obj [("vulnerabilities", .obj []),
    ("metadata", .obj [
      ("vulnerabilities", .obj [("total", .num 0), ("info", .num 0), ("low", .num 0),
        ("moderate", .num 0), ("high", .num 0), ("critical", .num 0)]),
      ("dependencies", .obj [("total", .num 0), ("prod", .num 0), ("dev", .num 0),
        ("optional", .num 0), ("peer", .num 0), ("peerOptional", .num 0)])])]

/-- The six `Severity` values in declaration order. -/
def severityAscending : List Severity :=
  [.None, .Info, .Low, .Moderate, .High, .Critical]

theorem splitChar_ne_nil (sep : Char) (cs : List Char) : splitChar sep cs ≠ [] := by
  cases cs with
  | nil => simp [splitChar]
  | cons c cs =>
    simp only [splitChar]
    cases h : splitChar sep cs with
    | nil => simp
    | cons g gs =>
      by_cases hc : c = sep <;> simp [hc]

theorem joinChar_splitChar (sep : Char) (cs : List Char) :
    joinChar sep (splitChar sep cs) = cs := by
  induction cs with
  | nil => rfl
  | cons c cs ih =>
    simp only [splitChar]
    cases h : splitChar sep cs with
    | nil => exact absurd h (splitChar_ne_nil sep cs)
    | cons g gs =>
      rw [h] at ih
      by_cases hc : c = sep
      · subst hc
        simp only [if_pos rfl, joinChar]
        exact congrArg (c :: ·) ih
      · simp only [if_neg hc]
        cases gs with
        | nil =>
          simp only [joinChar] at ih ⊢
          exact congrArg (c :: ·) ih
        | cons g₂ gs =>
          simp only [joinChar] at ih ⊢
          rw [List.cons_append]
          exact congrArg (c :: ·) ih


theorem except_bind_ok (a : α) (f : α → Except ε β) :
    (Except.ok a : Except ε α) >>= f = f a := rfl

theorem decodeVulnerabilityFull_shape (p : List PathSeg) (n : Int)
    (name dependency title url : String) (sev : Severity) (range : String) :
    decodeVulnerabilityFull p (.obj [("source", .num n), ("name", .str name),
      ("dependency", .str dependency), ("title", .str title), ("url", .str url),
      ("severity", severityToJson sev), ("range", .str range)]) =
      decU64 (p ++ [PathSeg.key "source"]) (.num n) >>= fun s₀ =>
        Except.ok (.Full s₀ name dependency title url sev range) := by
  cases sev <;> rfl

theorem untaggedFallback_ok (p : List PathSeg) (msg : String) (v : α) :
    untaggedFallback p msg (.ok v : Except DecodeError α) = .ok v := rfl

theorem decodeVulnerability_obj (p : List PathSeg) (fields : List (String × Json)) :
    decodeVulnerability p (.obj fields) =
      untaggedFallback p "data did not match any variant of untagged enum Vulnerability"
        (decodeVulnerabilityFull p (.obj fields)) := rfl

/-- C1: the version detector is total: it always selects report format 1 or
report format 2 (never failing); for every version string that parses as a
semantic version it selects format 1 exactly when the parsed version is
strictly below the 7.0.0 threshold and format 2 otherwise; and for every
string that does not parse it selects format 2. -/
theorem version_detector_total (s : String) :
    (reportFormat s = 1 ∨ reportFormat s = 2) ∧
    (∀ v, SemVer.parse s = some v →
      (SemVer.ltb v auditReportChange = true → reportFormat s = 1) ∧
      (SemVer.ltb v auditReportChange = false → reportFormat s = 2)) ∧
    (SemVer.parse s = none → reportFormat s = 2) := by
  refine ⟨?_, ?_, ?_⟩
  · unfold reportFormat
    cases h : SemVer.parse s with
    | none => right; rfl
    | some v =>
      by_cases hlt : SemVer.ltb v auditReportChange = true
      · left; simp [hlt]
      · right; simp [hlt]
  · intro v hv
    constructor <;> intro hlt <;> simp [reportFormat, hv, hlt]
  · intro hv
    simp [reportFormat, hv]

theorem version_detector_total_witness :
    reportFormat "6.14.8" = 1 ∧ reportFormat "7.0.0" = 2 ∧ reportFormat "9.5.1" = 2 ∧
    reportFormat "" = 2 ∧ reportFormat "not-a-version" = 2 :=
  ⟨((version_detector_total "6.14.8").2.1 ⟨6, 14, 8, none, none⟩ (by decide)).1 (by decide),
   ((version_detector_total "7.0.0").2.1 ⟨7, 0, 0, none, none⟩ (by decide)).2 (by decide),
   ((version_detector_total "9.5.1").2.1 ⟨9, 5, 1, none, none⟩ (by decide)).2 (by decide),
   (version_detector_total "").2.2 (by decide),
   (version_detector_total "not-a-version").2.2 (by decide)⟩

/-- C2 counterexample: contrary to the claim that an object `via` entry
missing a required field fails with a reported path pointing at the missing
key, the serde untagged derive discards the `Full`-variant error: an entry
missing `title` fails with the generic untagged error reported at the
entry's own path, which does not contain the missing key. -/
theorem vulnerability_missing_field_counterexample :
    decodeVulnerability [PathSeg.key "via", PathSeg.idx 0]
      (.obj (vulnFullFields.filter (fun kv => kv.1 ≠ "title"))) =
      .error ⟨[PathSeg.key "via", PathSeg.idx 0],
        "data did not match any variant of untagged enum Vulnerability"⟩ ∧
    PathSeg.key "title" ∉ [PathSeg.key "via", PathSeg.idx 0] := by
  constructor <;> decide

/-- C2 (amended): a `via` entry that is a bare JSON string decodes to the
name-only variant; an object carrying `source` (numeric), `name`,
`dependency`, `title`, `url`, `severity` and `range` decodes to the full
variant; and an object missing any one of those required fields is a decode
failure — not a fallback to name-only — reported as the generic
untagged-union error at the entry's own path (the missing key does not
appear in the reported path). -/
theorem vulnerability_untagged_resolution :
    (∀ p s, decodeVulnerability p (.str s) = .ok (.NameOnly s)) ∧
    (∀ p (source : Nat) name dependency title url (sev : Severity) range,
      source < 2 ^ 64 →
      decodeVulnerability p (.obj [("source", .num source), ("name", .str name),
        ("dependency", .str dependency), ("title", .str title), ("url", .str url),
        ("severity", severityToJson sev), ("range", .str range)]) =
        .ok (.Full source name dependency title url sev range)) ∧
    (∀ k, k ∈ ["source", "name", "dependency", "title", "url", "severity", "range"] →
      decodeVulnerability [] (.obj (vulnFullFields.filter (fun kv => kv.1 ≠ k))) =
        .error ⟨[], "data did not match any variant of untagged enum Vulnerability"⟩) := by
  refine ⟨fun p s => rfl, ?_, ?_⟩
  · intro p source name dependency title url sev range hsrc
    have hcond : (0 : Int) ≤ (source : Int) ∧ (source : Int) < 2 ^ 64 :=
      ⟨Int.natCast_nonneg source, by omega⟩
    have hd : decU64 (p ++ [PathSeg.key "source"]) (.num (source : Int)) = .ok source := by
      simp only [decU64]
      rw [if_pos hcond, Int.toNat_natCast]
    rw [decodeVulnerability_obj, decodeVulnerabilityFull_shape, hd, except_bind_ok,
      untaggedFallback_ok]
  · intro k hk
    fin_cases hk <;> decide

theorem vulnerability_untagged_resolution_witness :
    decodeVulnerability [] (.obj [("source", .num 118), ("name", .str "lodash"),
      ("dependency", .str "lodash"), ("title", .str "Prototype Pollution"),
      ("url", .str "https://npmjs.com/advisories/118"),
      ("severity", severityToJson .High), ("range", .str "<4.17.5")]) =
      .ok (.Full 118 "lodash" "lodash" "Prototype Pollution"
        "https://npmjs.com/advisories/118" .High "<4.17.5") ∧
    decodeVulnerability [] (.obj (vulnFullFields.filter (fun kv => kv.1 ≠ "title"))) =
      .error ⟨[], "data did not match any variant of untagged enum Vulnerability"⟩ :=
  ⟨vulnerability_untagged_resolution.2.1 [] 118 "lodash" "lodash" "Prototype Pollution"
      "https://npmjs.com/advisories/118" .High "<4.17.5" (by decide),
   vulnerability_untagged_resolution.2.2 "title" (by decide)⟩

/-- C3: a `fixAvailable` value that is a JSON boolean decodes to the
bool-only `Fix` variant carrying that boolean; an object with `name`,
`version` and `isSemVerMajor` decodes to the full variant with those three
fields. -/
theorem fix_untagged_resolution :
    (∀ p b, decodeFix p (.bool b) = .ok (.BoolOnly b)) ∧
    (∀ p name version major,
      decodeFix p (.obj [("name", .str name), ("version", .str version),
        ("isSemVerMajor", .bool major)]) = .ok (.Full name version major)) :=
  ⟨fun _ _ => rfl, fun _ _ _ _ => rfl⟩

/-- C4: the dependency-path codec splits on the literal separator when
decoding and joins with it when encoding, so decode-then-encode is the
identity on path strings; in particular `"app>lib-a>lib-b"` decodes to
`["app", "lib-a", "lib-b"]` and that sequence re-encodes to the identical
string. -/
theorem module_path_roundtrip :
    (∀ p s xs, deserialize_module_path p (.str s) = .ok xs →
      serialize_module_path xs = .str s) ∧
    deserialize_module_path [] (.str "app>lib-a>lib-b") = .ok ["app", "lib-a", "lib-b"] ∧
    serialize_module_path ["app", "lib-a", "lib-b"] = .str "app>lib-a>lib-b" := by
  refine ⟨?_, by decide, rfl⟩
  intro p s xs h
  simp only [deserialize_module_path, decStr, Except.map, Except.ok.injEq] at h
  subst h
  simp only [serialize_module_path, List.map_map]
  have hdata : (String.data ∘ String.mk) = id := rfl
  rw [hdata, List.map_id, joinChar_splitChar]

theorem module_path_roundtrip_witness :
    serialize_module_path ["app", "lib-a", "lib-b"] = .str "app>lib-a>lib-b" :=
  module_path_roundtrip.1 [] "app>lib-a>lib-b" ["app", "lib-a", "lib-b"] (by decide)

/-- C5: `Severity` is a closed six-value enumeration realizing the total
order None < Info < Low < Moderate < High < Critical: ordering and equality
comparisons agree with the position in that listed order for every pair,
and sorting any permutation of the six values yields exactly that order. -/
theorem severity_order_sort :
    (∀ a b : Severity,
      (a < b ↔ severityAscending.indexOf a < severityAscending.indexOf b) ∧
      (a ≤ b ↔ severityAscending.indexOf a ≤ severityAscending.indexOf b) ∧
      (a = b ↔ severityAscending.indexOf a = severityAscending.indexOf b)) ∧
    (∀ l : List Severity, l.Perm severityAscending →
      List.insertionSort (· ≤ ·) l = severityAscending) := by
  constructor
  · decide
  · intro l hl
    have hs : List.Sorted (· ≤ ·) (List.insertionSort (· ≤ ·) l) :=
      List.sorted_insertionSort (· ≤ ·) l
    have hp : (List.insertionSort (· ≤ ·) l).Perm l := List.perm_insertionSort (· ≤ ·) l
    have hasc : List.Sorted (· ≤ ·) severityAscending := by decide
    exact List.eq_of_perm_of_sorted (hp.trans hl) hs hasc

theorem severity_order_sort_witness :
    List.insertionSort (· ≤ ·) [Severity.Critical, .None, .High, .Info, .Moderate, .Low] =
      severityAscending :=
  severity_order_sort.2 [Severity.Critical, .None, .High, .Info, .Moderate, .Low] (by decide)

/-- C6 counterexample: contrary to the claim that the `dependent` and
`homepage` fields are optional, a freshness-report package entry that omits
them fails to decode (with the failure at the `dependent` key, the first
required field missing). -/
theorem packageStatus_counterexample :
    decodePackageStatus []
      (.obj (packageStatusFull.filter (fun kv => kv.1 ≠ "dependent" ∧ kv.1 ≠ "homepage"))) =
      .error ⟨[PathSeg.key "dependent"], "missing field"⟩ := by
  decide

/-- C6 (amended): in the freshness report's per-package record only the
filesystem location is optional; the dependent-package name and the
homepage URL are required: omitting `location` still decodes successfully
with an explicit no-value, while omitting `dependent` or `homepage` is a
decode failure whose path names the missing field. -/
theorem packageStatus_field_presence :
    decodePackageStatus [] (.obj (packageStatusFull.filter (fun kv => kv.1 ≠ "location"))) =
      .ok ⟨"1.2.3", "2.0.0", none, "app", "dependencies", "https://example.com"⟩ ∧
    decodePackageStatus [] (.obj (packageStatusFull.filter (fun kv => kv.1 ≠ "dependent"))) =
      .error ⟨[PathSeg.key "dependent"], "missing field"⟩ ∧
    decodePackageStatus [] (.obj (packageStatusFull.filter (fun kv => kv.1 ≠ "homepage"))) =
      .error ⟨[PathSeg.key "homepage"], "missing field"⟩ := by
  refine ⟨by decide, by decide, by decide⟩

/-- C7: on the audit path the `InvocationOutcome` is derived solely from
the process exit status, never from the payload: whenever `audit_pure`
succeeds, the returned outcome is `UpToDate` exactly when the exit status
was a success and `UpdateRequired` otherwise, for every version string and
every JSON payload. -/
theorem audit_outcome_from_exit_status (version : String) (exitSuccess : Bool) (json : Json)
    (result : IndicatedUpdateRequirement × NpmAuditData)
    (h : audit_pure version exitSuccess json = .ok result) :
    result.1 = if exitSuccess then IndicatedUpdateRequirement.UpToDate
      else IndicatedUpdateRequirement.UpdateRequired := by
  unfold audit_pure at h
  rcases hf : reportFormat version with _ | _ | _ | n <;> rw [hf] at h
  · simp at h
  · cases hd : decodeNpmAuditDataV1 [] json with
    | error e => rw [hd] at h; simp [Except.map] at h
    | ok d =>
      rw [hd] at h
      simp only [Except.map, Except.ok.injEq] at h
      rw [← h]
  · cases hd : decodeNpmAuditDataV2 [] json with
    | error e => rw [hd] at h; simp [Except.map] at h
    | ok d =>
      rw [hd] at h
      simp only [Except.map, Except.ok.injEq] at h
      rw [← h]
  · simp at h

theorem audit_outcome_from_exit_status_witness :
    (IndicatedUpdateRequirement.UpToDate,
      NpmAuditData.Version2 ⟨none, [], ⟨⟨0, 0, 0, 0, 0, 0⟩, ⟨0, 0, 0, 0, 0, 0⟩⟩⟩).1 =
      if true then IndicatedUpdateRequirement.UpToDate
      else IndicatedUpdateRequirement.UpdateRequired :=
  audit_outcome_from_exit_status "7.0.0" true v2Minimal _ (by decide)

/-- C8: a v1 audit report whose `advisories` mapping contains an advisory
(key `118`) missing the required `created` timestamp fails to decode, and
the reported structural path contains the advisory's key and the `created`
field name — both for the v1 decoder alone and through the full audit path
with a pre-7.0.0 version string. -/
theorem audit_v1_missing_created_path :
    decodeNpmAuditDataV1 [] v1MissingCreated =
      .error ⟨[PathSeg.key "advisories", PathSeg.key "118", PathSeg.key "created"],
        "missing field"⟩ ∧
    audit_pure "6.14.8" false v1MissingCreated =
      .error ⟨[PathSeg.key "advisories", PathSeg.key "118", PathSeg.key "created"],
        "missing field"⟩ := by
  constructor <;> decide

/-- C9: the optional-timestamp codec treats JSON `null` as a handled value:
decoding `null` yields an explicit no-value rather than a failure, decoding
an RFC 3339 date-time string yields the corresponding timestamp, and
encoding a no-value produces JSON `null` while a present timestamp encodes
to its RFC 3339 string. -/
theorem optional_rfc3339_codec :
    (∀ p, deserialize_optional_rfc3339 p .null = .ok none) ∧
    (∀ p s t, parseRfc3339 s = some t →
      deserialize_optional_rfc3339 p (.str s) = .ok (some t)) ∧
    serialize_optional_rfc3339 none = .null ∧
    (∀ t, serialize_optional_rfc3339 (some t) = .str (formatRfc3339 t)) := by
  refine ⟨fun p => rfl, ?_, rfl, fun t => rfl⟩
  intro p s t h
  simp [deserialize_optional_rfc3339, h]

theorem optional_rfc3339_codec_witness :
    deserialize_optional_rfc3339 [] (.str "2019-06-24T14:44:27Z") =
      .ok (some ⟨2019, 6, 24, 14, 44, 27, 0, 0⟩) :=
  optional_rfc3339_codec.2.1 [] "2019-06-24T14:44:27Z" ⟨2019, 6, 24, 14, 44, 27, 0, 0⟩
    (by decide)

/-- C10: the freshness path uses the opposite exit-status polarity from the
audit path: whenever `outdated_pure` succeeds, the returned outcome is
`UpdateRequired` exactly when the exit status was a success and `UpToDate`
otherwise, for every JSON payload. -/
theorem outdated_outcome_from_exit_status (exitSuccess : Bool) (json : Json)
    (result : IndicatedUpdateRequirement × NpmOutdatedData)
    (h : outdated_pure exitSuccess json = .ok result) :
    result.1 = if exitSuccess then IndicatedUpdateRequirement.UpdateRequired
      else IndicatedUpdateRequirement.UpToDate := by
  unfold outdated_pure at h
  cases hd : decodeNpmOutdatedData [] json with
  | error e => rw [hd] at h; simp [Except.map] at h
  | ok d =>
    rw [hd] at h
    simp only [Except.map, Except.ok.injEq] at h
    rw [← h]

theorem outdated_outcome_from_exit_status_witness :
    (IndicatedUpdateRequirement.UpdateRequired, NpmOutdatedData.mk []).1 =
      if true then IndicatedUpdateRequirement.UpdateRequired
      else IndicatedUpdateRequirement.UpToDate :=
  outdated_outcome_from_exit_status true (.obj []) _ (by decide)
